import Mathlib

/-!
# Verification of the nutrition-query normalizer

A shallow embedding of `get_nutrition_info` and its helper functions
(`parse_input`, `convert_to_grams`, `make_request_with_retry`,
`get_simple_nutrition`) from `src/agents/meal_nutrition.py`, together with
proofs about the spec's claims about them.

Modelling conventions:
* Python strings are represented by Lean `String`; the parsing helpers work
  on `List Char` (the underlying character list) so that everything reduces
  in the kernel.
* Python floats are modelled by `ℚ`; all arithmetic performed by the code
  (parsing decimals, unit conversion, linear scaling) is exact decimal
  arithmetic, for which `ℚ` is a faithful model up to rounding.
* The two `requests.get` call sites are abstracted by an environment that
  yields, for each attempt number, the outcome of that attempt (a decoded
  body, an HTTP error status, a timeout, or a connection error).  The body
  carries its own JSON-decode result, modelling `response.json()`.
* Python exceptions are modelled by the `Except PyExc` monad; a `try/except`
  block is a `match` on that result.
-/

set_option autoImplicit false

namespace MealNutrition

/-! ## Character-level helpers (Python `str.strip`, `\s`, `\d`, `\w`) -/

/-- The whitespace characters stripped by Python `str.strip()` and matched by
the regex class `\s` (restricted to ASCII, which covers all inputs the code
meets). -/
def isPySpace (c : Char) : Bool :=
  c == ' ' || c == '\t' || c == '\n' || c == '\x0d' || c == '\x0b' || c == '\x0c'

/-- The regex class `\w` (ASCII): letters, digits and underscore. -/
def isWordChar (c : Char) : Bool :=
  c.isAlphanum || c == '_'

/-- Python `str.strip()` on a character list. -/
def pyStrip (s : List Char) : List Char :=
  ((s.dropWhile isPySpace).reverse.dropWhile isPySpace).reverse

/-- Python `str.rfind(ch)`: the index of the last occurrence of `ch`,
`none` when absent (Python returns `-1`). -/
def rfindChar (ch : Char) : List Char → Option Nat
  | [] => none
  | c :: rest =>
    match rfindChar ch rest with
    | some i => some (i + 1)
    | none => if c == ch then some 0 else none

/-- The first element of Python `s.split("/")`: the characters before the
first `'/'` (the whole string when there is none). -/
def firstSplitSlash (s : List Char) : List Char :=
  s.takeWhile (fun c => c != '/')

/-- Numeric value of a digit string, as `int(s)` would give. -/
def digitsVal (l : List Char) : Nat :=
  l.foldl (fun acc c => 10 * acc + (c.toNat - 48)) 0

/-! ## The measurement regex

`re.match(r"(\d+/\d+|\d*\.?\d+)\s*(\w+)?", s)`: an anchored match returning
group 1 (the numeric token) and the optional group 2 (the unit token). -/

/-- Result of a successful `re.match` of the measurement pattern:
`match.groups()`. -/
structure MeasMatch where
  quantityTok : List Char
  unitTok : Option (List Char)
deriving DecidableEq, Repr

/-- The numeric alternation `(\d+/\d+|\d*\.?\d+)` matched at the start of
`s`: the matched token (group 1) and the remaining characters.  The first
alternative `\d+/\d+` is preferred; the second `\d*\.?\d+` is matched
greedily with backtracking (so `"12."` matches `"12"`). -/
def matchNumeric (s : List Char) : Option (List Char × List Char) :=
  match s.dropWhile Char.isDigit with
  | '/' :: r2 =>
    if s.takeWhile Char.isDigit ≠ [] ∧ r2.takeWhile Char.isDigit ≠ [] then
      some (s.takeWhile Char.isDigit ++ '/' :: r2.takeWhile Char.isDigit,
        r2.dropWhile Char.isDigit)
    else if s.takeWhile Char.isDigit ≠ [] then
      some (s.takeWhile Char.isDigit, '/' :: r2)
    else none
  | '.' :: r2 =>
    if r2.takeWhile Char.isDigit ≠ [] then
      some (s.takeWhile Char.isDigit ++ '.' :: r2.takeWhile Char.isDigit,
        r2.dropWhile Char.isDigit)
    else if s.takeWhile Char.isDigit ≠ [] then
      some (s.takeWhile Char.isDigit, '.' :: r2)
    else none
  | r1 => if s.takeWhile Char.isDigit ≠ [] then some (s.takeWhile Char.isDigit, r1) else none

/-- Anchored match of `(\d+/\d+|\d*\.?\d+)\s*(\w+)?` against `s`: after the
numeric token, `\s*` skips whitespace and `(\w+)?` takes a maximal nonempty
run of word characters if there is one; `match.groups()` is returned. -/
def matchMeasurement (s : List Char) : Option MeasMatch :=
  match matchNumeric s with
  | none => none
  | some (tok, rest) =>
    let rest2 := rest.dropWhile isPySpace
    let u := rest2.takeWhile isWordChar
    some ⟨tok, if u = [] then none else some u⟩

/-! ## Quantity parsing (`eval` for fractions, `float` otherwise) -/

/-- `eval(tok)` for a token containing `'/'`, as used for fractions `a/b`:
true division, raising on a zero denominator.  (The regex only ever produces
`digits '/' digits` tokens for this branch.) -/
def evalFraction (tok : List Char) : Except String ℚ :=
  let num := tok.takeWhile Char.isDigit
  let rest := tok.dropWhile Char.isDigit
  match rest with
  | '/' :: den =>
    if digitsVal den = 0 then .error "division by zero"
    else .ok ((digitsVal num : ℚ) / (digitsVal den : ℚ))
  | _ => .error "invalid syntax"

/-- `float(tok)` for the decimal/integer tokens the regex produces
(`digits`, `digits.digits` or `.digits`). -/
def floatOfToken (tok : List Char) : ℚ :=
  let intPart := tok.takeWhile Char.isDigit
  let rest := tok.dropWhile Char.isDigit
  match rest with
  | '.' :: frac => (digitsVal intPart : ℚ) + (digitsVal frac : ℚ) / ((10 : ℚ) ^ frac.length)
  | _ => (digitsVal intPart : ℚ)

/-- `eval(quantity_str) if "/" in quantity_str else float(quantity_str)`,
wrapped in the surrounding `try` (any raise becomes an error value). -/
def parseQuantityToken (tok : List Char) : Except String ℚ :=
  if '/' ∈ tok then evalFraction tok else .ok (floatOfToken tok)

/-! ## `parse_input` -/

/-- The result of `parse_input`: Python returns a 4-tuple
`(quantity, unit, food_name, error)` where exactly one of the payload and
the error message is meaningful. -/
inductive ParseOutcome where
  | ok (quantity : ℚ) (unit : String) (foodName : String)
  | failed (msg : String)
deriving DecidableEq, Repr

/-- The tail of `parse_input`: `if not food_name: return error` else
return the parsed triple. -/
def finishParse (quantity : ℚ) (unit : String) (food : List Char) : ParseOutcome :=
  if food = [] then .failed "No food name provided"
  else .ok quantity unit (String.mk food)

/-- `parse_input(query)` from `meal_nutrition.py`: strip; an empty query is
an error; with no space the whole query is the food name with default
quantity 1.0 and unit "g"; otherwise the text after the last space is the
food name and the text before it, split on `"/"` with only the first piece
kept, is matched by the measurement regex. -/
def parse_input (query : String) : ParseOutcome :=
  let q := pyStrip query.data
  if q = [] then .failed "Empty query"
  else
    match rfindChar ' ' q with
    | none => finishParse 1 "g" q
    | some idx =>
      let food := pyStrip (q.drop (idx + 1))
      let meas := pyStrip (q.take idx)
      if meas = [] then finishParse 1 "g" food
      else
        let firstMeas := pyStrip (firstSplitSlash meas)
        match matchMeasurement firstMeas with
        | none => .failed ("Failed to parse measurement '" ++ String.mk firstMeas ++ "'")
        | some m =>
          match parseQuantityToken m.quantityTok with
          | .error e =>
            .failed ("Failed to parse quantity '" ++ String.mk m.quantityTok ++ "': " ++ e)
          | .ok quantity =>
            if quantity ≤ 0 then .failed "Quantity must be positive"
            else
              let unit :=
                match m.unitTok with
                | some u => String.mk (u.map Char.toLower)
                | none => "g"
              finishParse quantity unit food

/-! ## `convert_to_grams` -/

/-- The `conversions` table: grams-per-unit factors. -/
def conversionFactor (unit : String) : Option ℚ :=
  if unit = "g" then some 1
  else if unit = "kg" then some 1000
  else if unit = "mg" then some 0.001
  else if unit = "ml" then some 1
  else if unit = "l" then some 1000
  else if unit = "oz" then some 28.3495
  else if unit = "lb" then some 453.592
  else if unit = "tsp" then some 5
  else if unit = "tbsp" then some 15
  else if unit = "cup" then some 240
  else none

/-- `convert_to_grams(quantity, unit)`: lowercase the unit (defaulting an
empty unit to "g"), look it up in the table with default factor 1, and
multiply. -/
def convert_to_grams (quantity : ℚ) (unit : String) : ℚ :=
  quantity *
    (conversionFactor
      (if unit = "" then "g" else String.mk (unit.data.map Char.toLower))).getD 1

/-! ## Nutrient entries and `get_simple_nutrition` -/

/-- A nested `{'id': ...}` object under the `'nutrient'` key of a nutrient
entry. -/
structure NutrientInner where
  id : Nat
deriving DecidableEq, Repr

/-- One element of the `foodNutrients` list of a detail response: the
`'nutrient'` key may be absent (checked by `'nutrient' in nutrient`), and so
may the `'amount'` key (read with `nutrient.get('amount', 0)` and checked
with `'amount' in nutrient` before scaling). -/
structure NutrientEntry where
  nutrient : Option NutrientInner
  amount : Option ℚ
deriving DecidableEq, Repr

/-- `NUTRIENT_MAP` in Python dict insertion order:
calories 1008, total_fat 1004, protein 1003, carbohydrates 1005. -/
def NUTRIENT_MAP : List (String × Nat) :=
  [("calories", 1008), ("total_fat", 1004), ("protein", 1003), ("carbohydrates", 1005)]

/-- The `temp_nutrition` dict: at most the four tracked names are ever
written, so it is a record of four optional values. -/
structure TempNutrition where
  calories? : Option ℚ
  total_fat? : Option ℚ
  protein? : Option ℚ
  carbohydrates? : Option ℚ
deriving DecidableEq, Repr

/-- One iteration of `for name, id in NUTRIENT_MAP.items(): if nutrient_id ==
id: temp_nutrition[name] = amount` (the four ids are distinct, so the loop
writes at most one slot). -/
def updateTemp (t : TempNutrition) (nutrientId : Nat) (amount : ℚ) : TempNutrition :=
  if nutrientId = 1008 then { t with calories? := some amount }
  else if nutrientId = 1004 then { t with total_fat? := some amount }
  else if nutrientId = 1003 then { t with protein? := some amount }
  else if nutrientId = 1005 then { t with carbohydrates? := some amount }
  else t

/-- The first loop of `get_simple_nutrition`: fold the nutrient list into
`temp_nutrition`, skipping entries without a `'nutrient'` key and reading
the amount with default 0. -/
def buildTemp : List NutrientEntry → TempNutrition → TempNutrition
  | [], t => t
  | n :: rest, t =>
    match n.nutrient with
    | some inner => buildTemp rest (updateTemp t inner.id (n.amount.getD 0))
    | none => buildTemp rest t

/-- `get_simple_nutrition(nutrition_list)`: extract the four tracked
nutrients and return them as a fixed-order record
(calories, carbohydrates, protein, total_fat), defaulting each missing one
to 0.0. -/
def get_simple_nutrition (l : List NutrientEntry) : List (String × ℚ) :=
  let temp := buildTemp l ⟨none, none, none, none⟩
  [("calories", temp.calories?.getD 0),
   ("carbohydrates", temp.carbohydrates?.getD 0),
   ("protein", temp.protein?.getD 0),
   ("total_fat", temp.total_fat?.getD 0)]

/-- The in-place scaling loop: `for nutrient in nutrition_per_100g: if
'amount' in nutrient: nutrient['amount'] = float(nutrient['amount']) *
scale_factor`. -/
def scaleNutrients (l : List NutrientEntry) (factor : ℚ) : List NutrientEntry :=
  l.map fun n =>
    match n.amount with
    | some a => { n with amount := some (a * factor) }
    | none => n

/-! ## The HTTP layer and `make_request_with_retry` -/

/-- Python exceptions that can cross the helper boundaries.
`httpError`, `timeout` and `connectionError` are the
`requests.exceptions.RequestException` subclasses raised by
`raise_for_status` / `requests.get`; `typeError` models `raise None`
(reachable only with `max_retries = 0`); `keyError` models a missing dict
key. The `String` is `str(e)`. -/
inductive PyExc where
  | httpError (status : Nat) (msg : String)
  | timeout (msg : String)
  | connectionError (msg : String)
  | typeError (msg : String)
  | keyError (msg : String)
deriving DecidableEq, Repr

/-- `isinstance(e, requests.exceptions.RequestException)`. -/
def isRequestException : PyExc → Bool
  | .httpError _ _ => true
  | .timeout _ => true
  | .connectionError _ => true
  | _ => false

/-- `str(e)` of an exception. -/
def excMsg : PyExc → String
  | .httpError _ m => m
  | .timeout m => m
  | .connectionError m => m
  | .typeError m => m
  | .keyError m => m

/-- The outcome the network yields for one `requests.get(url, timeout=10)` +
`raise_for_status()` attempt: either a response whose `.json()` gives
`body : β` (with `Except String β` modelling a possible
`json.JSONDecodeError`), or an HTTP error status, a timeout, or a connection
error. -/
inductive AttemptOutcome (β : Type) where
  | success (body : Except String β)
  | httpError (status : Nat) (msg : String)
  | timeout (msg : String)
  | connectionError (msg : String)
deriving Repr

/-- The `for attempt in range(max_retries)` loop of
`make_request_with_retry`, with `fuel` the remaining attempts, `i` the next
attempt index and `last` the saved `last_exception`.  A success returns the
response body; an HTTP error with status outside {500, 502, 503, 504} is
raised immediately; retryable failures are recorded and the next attempt
runs; when the attempts are exhausted the last exception is raised
(`raise None` is a `TypeError` when the loop never ran). -/
def retryLoop {β : Type} (attempts : Nat → AttemptOutcome β) : Nat → Nat → Option PyExc →
    Except PyExc (Except String β)
  | _, 0, last => .error (last.getD (.typeError "exceptions must derive from BaseException"))
  | i, fuel + 1, _ =>
    match attempts i with
    | .success body => .ok body
    | .httpError status msg =>
      if status = 500 ∨ status = 502 ∨ status = 503 ∨ status = 504 then
        retryLoop attempts (i + 1) fuel (some (.httpError status msg))
      else .error (.httpError status msg)
    | .timeout msg => retryLoop attempts (i + 1) fuel (some (.timeout msg))
    | .connectionError msg => retryLoop attempts (i + 1) fuel (some (.connectionError msg))

/-- `make_request_with_retry(url, max_retries=3, delay=1)`: the url is
abstracted into the `attempts` function supplied by the environment for this
call site (every caller uses the default `max_retries` of 3); the fixed
inter-attempt `time.sleep(delay)` has no observable effect in the model. -/
def make_request_with_retry {β : Type} (attempts : Nat → AttemptOutcome β)
    (max_retries : Nat) : Except PyExc (Except String β) :=
  retryLoop attempts 0 max_retries none

/-! ## Decoded response shapes -/

/-- One element of the `foods` list of a search response; the `'fdcId'` key
may be absent (reading it then raises `KeyError`). -/
structure SearchFood where
  fdcId : Option Nat
deriving DecidableEq, Repr

/-- A decoded search response: `search_results.get('foods')` returns `none`
when the key is absent. -/
structure SearchBody where
  foods : Option (List SearchFood)
deriving DecidableEq, Repr

/-- A decoded detail response: `food_details.get('foodNutrients', [])`. -/
structure FoodDetails where
  foodNutrients : Option (List NutrientEntry)
deriving DecidableEq, Repr

/-- The external world for one `get_nutrition_info` call: per-attempt
outcomes of the search request and, for each food id, of the detail
request. -/
structure Env where
  searchAttempts : Nat → AttemptOutcome SearchBody
  detailAttempts : Nat → Nat → AttemptOutcome FoodDetails

/-! ## `get_nutrition_info` -/

/-- The dict returned by `get_nutrition_info`: either a nutrition summary
(a dict of string keys and float values, in insertion order) or an
`{"error": msg}` dict. -/
inductive NutritionResult where
  | summary (fields : List (String × ℚ))
  | error (msg : String)
deriving DecidableEq, Repr

/-- `ZERO_NUTRITION`, the zeroed summary in fixed order. -/
def ZERO_NUTRITION : List (String × ℚ) :=
  [("calories", 0), ("carbohydrates", 0), ("protein", 0), ("total_fat", 0)]

/-- The argument passed for `query`: the tool may be handed a non-string
value, which fails `isinstance(query, str)`. -/
inductive QueryInput where
  | pyStr (s : String)
  | nonString
deriving DecidableEq, Repr

/-- Python truthiness of the `API_KEY` read from the environment
(`os.environ.get` yields `None` or a string; the empty string is falsy). -/
def keyTruthy : Option String → Bool
  | none => false
  | some s => s ≠ ""

/-- The body of the outermost `try` of `get_nutrition_info` (everything
after the input-validation and credential checks): parse, search, fetch
details, convert to grams, scale and project.  `.error e` models an
exception escaping to the outermost `except Exception` handler. -/
def mainBody (query : String) (env : Env) : Except PyExc NutritionResult :=
  match parse_input query with
  | .failed _ => .ok (.summary ZERO_NUTRITION)
  | .ok input_quantity input_unit food_name =>
    match make_request_with_retry env.searchAttempts 3 with
    | .error e =>
      if isRequestException e then
        .ok (.error ("API search request failed for '" ++ food_name ++ "': " ++ excMsg e))
      else .error e
    | .ok (.error m) =>
      .ok (.error ("Failed to decode search JSON for '" ++ food_name ++ "': " ++ m))
    | .ok (.ok searchResults) =>
      match searchResults.foods with
      | none => .ok (.summary ZERO_NUTRITION)
      | some [] => .ok (.summary ZERO_NUTRITION)
      | some (firstFood :: _) =>
        match firstFood.fdcId with
        | none => .error (.keyError "fdcId")
        | some food_id =>
          match make_request_with_retry (env.detailAttempts food_id) 3 with
          | .error e =>
            if isRequestException e then
              .ok (.error ("API details request failed for food ID " ++ toString food_id ++
                ": " ++ excMsg e))
            else .error e
          | .ok (.error m) =>
            .ok (.error ("Failed to decode details JSON for food ID " ++ toString food_id ++
              ": " ++ m))
          | .ok (.ok food_details) =>
            -- total_grams := convert_to_grams(input_quantity, input_unit);
            -- nutrition_per_100g := food_details.get('foodNutrients', []);
            -- scale_factor := total_grams / 100
            if convert_to_grams input_quantity input_unit ≤ 0 then
              .ok (.summary ZERO_NUTRITION)
            else if food_details.foodNutrients.getD [] = [] then
              .ok (.summary ZERO_NUTRITION)
            else
              .ok (.summary (get_simple_nutrition
                (scaleNutrients (food_details.foodNutrients.getD [])
                  (convert_to_grams input_quantity input_unit / 100))))

/-- `get_nutrition_info(query)`: input validation (before the credential
check), the credential check, then the main logic wrapped by the outermost
`except Exception` handler that converts any escaped exception into an
error dict. -/
def get_nutrition_info (query : QueryInput) (apiKey : Option String) (env : Env) :
    NutritionResult :=
  match query with
  | .nonString => .summary ZERO_NUTRITION
  | .pyStr s =>
    if s = "" ∨ pyStrip s.data = [] then .summary ZERO_NUTRITION
    else if ¬ keyTruthy apiKey then
      .error "USDA_FOOD_API_KEY not found in environment variables"
    else
      match mainBody s env with
      | .ok r => r
      | .error e =>
        .error ("Unexpected error in get_nutrition_info for '" ++ s ++ "': " ++ excMsg e)

/-! ## Characterization helpers and sample environments

`lastTrackedAmount` is a specification-side description of what
`get_simple_nutrition` extracts: the amount (with the code's default 0 for a
missing `'amount'` key) of the last entry of the list whose nutrient id is
`nid`, or `none` when no entry matches.  It is compared with the code's
fold in the theorems below. -/

/-- The amount of the last entry with nutrient id `nid` (Python dict writes:
the last write wins), reading a missing amount as 0; `none` when no entry
has that id. -/
def lastTrackedAmount (nid : Nat) : List NutrientEntry → Option ℚ
  | [] => none
  | n :: rest =>
    match n.nutrient with
    | some inner =>
      if inner.id = nid then
        (lastTrackedAmount nid rest).or (some (n.amount.getD 0))
      else lastTrackedAmount nid rest
    | none => lastTrackedAmount nid rest

/-- Projection of the `temp_nutrition` slot that `NUTRIENT_MAP` associates
with a nutrient id. -/
def tempProj (t : TempNutrition) (nid : Nat) : Option ℚ :=
  if nid = 1008 then t.calories?
  else if nid = 1004 then t.total_fat?
  else if nid = 1003 then t.protein?
  else if nid = 1005 then t.carbohydrates?
  else none

/-- A sample external world whose requests all time out; used to
instantiate theorems about code paths that never reach the network. -/
def sampleEnv : Env :=
  { searchAttempts := fun _ => .timeout "timed out"
    detailAttempts := fun _ _ => .timeout "timed out" }

/-- A sample decoded detail response for butter: energy 717 kcal and total
fat 81 g per 100 g, one untracked nutrient and one entry without a
`'nutrient'` key. -/
def butterDetails : FoodDetails :=
  ⟨some [⟨some ⟨1008⟩, some 717⟩, ⟨some ⟨1004⟩, some 81⟩,
         ⟨some ⟨9999⟩, some 5⟩, ⟨none, some 3⟩]⟩

/-- A decoded search response with one matching food record. -/
def butterSearch : SearchBody := ⟨some [⟨some 123⟩]⟩

/-- An environment whose search call fails twice with HTTP 503 and succeeds
on the third attempt, and whose detail call succeeds. -/
def envRetrySuccess : Env :=
  { searchAttempts := fun i =>
      if i < 2 then .httpError 503 "503 Server Error" else .success (.ok butterSearch)
    detailAttempts := fun _ _ => .success (.ok butterDetails) }

/-- An environment whose search call fails with HTTP 404. -/
def envNotFound : Env :=
  { searchAttempts := fun _ => .httpError 404 "404 Client Error"
    detailAttempts := fun _ _ => .success (.ok butterDetails) }

/-- A retryable search-attempt schedule: HTTP 503 on the first two attempts,
success on the third. -/
def flakySearchAttempts : Nat → AttemptOutcome SearchBody :=
  fun i => if i < 2 then .httpError 503 "503 Server Error" else .success (.ok butterSearch)

/-! ## Helper lemmas about the string primitives -/

theorem dropWhile_eq_self_of_head {p : Char → Bool} {l : List Char}
    (h : ∀ c, l.head? = some c → p c = false) : l.dropWhile p = l := by
  cases l with
  | nil => rfl
  | cons c rest => simp [List.dropWhile_cons, h c rfl]

theorem pyStrip_eq_self {l : List Char}
    (h1 : ∀ c, l.head? = some c → isPySpace c = false)
    (h2 : ∀ c, l.getLast? = some c → isPySpace c = false) : pyStrip l = l := by
  unfold pyStrip
  rw [dropWhile_eq_self_of_head h1]
  rw [dropWhile_eq_self_of_head (by simpa [List.head?_reverse] using h2)]
  exact List.reverse_reverse l

theorem pyStrip_eq_self_of_all {l : List Char}
    (h : ∀ c ∈ l, isPySpace c = false) : pyStrip l = l :=
  pyStrip_eq_self
    (fun c hc => h c (by cases l with | nil => simp at hc | cons a t => simp_all))
    (fun c hc => h c (List.mem_of_mem_getLast? hc))

theorem pyStrip_eq_nil_of_all {l : List Char}
    (h : ∀ c ∈ l, isPySpace c = true) : pyStrip l = [] := by
  unfold pyStrip
  rw [List.dropWhile_eq_nil_iff.mpr h]
  simp

theorem rfindChar_eq_none {ch : Char} {l : List Char} (h : ch ∉ l) :
    rfindChar ch l = none := by
  induction l with
  | nil => rfl
  | cons c rest ih =>
    unfold rfindChar
    rw [ih (fun hm => h (List.mem_cons_of_mem c hm))]
    have : ¬(c == ch) = true := by
      simp only [beq_iff_eq]
      rintro rfl
      exact h (List.mem_cons_self c rest)
    simp [this]

theorem rfindChar_append_sep {xs f : List Char} (hf : ' ' ∉ f) :
    rfindChar ' ' (xs ++ ' ' :: f) = some xs.length := by
  induction xs with
  | nil => simp [rfindChar, rfindChar_eq_none hf]
  | cons c rest ih => simp [rfindChar, ih]

theorem takeWhile_append_all {p : Char → Bool} {xs : List Char} (ys : List Char)
    (h : ∀ c ∈ xs, p c = true) :
    (xs ++ ys).takeWhile p = xs ++ ys.takeWhile p := by
  induction xs with
  | nil => rfl
  | cons c rest ih =>
    rw [List.cons_append, List.takeWhile_cons, h c (List.mem_cons_self c rest), if_pos rfl,
      ih (fun d hd => h d (List.mem_cons_of_mem c hd))]
    rfl

theorem dropWhile_append_all {p : Char → Bool} {xs : List Char} (ys : List Char)
    (h : ∀ c ∈ xs, p c = true) :
    (xs ++ ys).dropWhile p = ys.dropWhile p := by
  induction xs with
  | nil => rfl
  | cons c rest ih =>
    rw [List.cons_append, List.dropWhile_cons, if_pos (h c (List.mem_cons_self c rest)),
      ih (fun d hd => h d (List.mem_cons_of_mem c hd))]

theorem takeWhile_eq_self_of_all {p : Char → Bool} {l : List Char}
    (h : ∀ c ∈ l, p c = true) : l.takeWhile p = l :=
  List.takeWhile_eq_self_iff.mpr h

/-! ## Character-class bridging lemmas -/

theorem not_pySpace_of_isDigit {c : Char} (h : c.isDigit = true) : isPySpace c = false := by
  by_contra hne
  have hs : isPySpace c = true := by revert hne; cases isPySpace c <;> simp
  unfold isPySpace at hs
  simp only [Bool.or_eq_true, beq_iff_eq, or_assoc] at hs
  rcases hs with rfl | rfl | rfl | rfl | rfl | rfl <;> exact absurd h (by decide)

theorem not_pySpace_of_isAlpha {c : Char} (h : c.isAlpha = true) : isPySpace c = false := by
  by_contra hne
  have hs : isPySpace c = true := by revert hne; cases isPySpace c <;> simp
  unfold isPySpace at hs
  simp only [Bool.or_eq_true, beq_iff_eq, or_assoc] at hs
  rcases hs with rfl | rfl | rfl | rfl | rfl | rfl <;> exact absurd h (by decide)

theorem ne_space_of_isDigit {c : Char} (h : c.isDigit = true) : c ≠ ' ' := by
  rintro rfl; exact absurd h (by decide)

theorem ne_space_of_isAlpha {c : Char} (h : c.isAlpha = true) : c ≠ ' ' := by
  rintro rfl; exact absurd h (by decide)

theorem ne_slash_of_isDigit {c : Char} (h : c.isDigit = true) : c ≠ '/' := by
  rintro rfl; exact absurd h (by decide)

theorem ne_slash_of_isAlpha {c : Char} (h : c.isAlpha = true) : c ≠ '/' := by
  rintro rfl; exact absurd h (by decide)

theorem ne_dot_of_isAlpha {c : Char} (h : c.isAlpha = true) : c ≠ '.' := by
  rintro rfl; exact absurd h (by decide)

theorem not_isDigit_of_isAlpha {c : Char} (h : c.isAlpha = true) : c.isDigit = false := by
  rcases hc : c.isDigit with _ | _
  · rfl
  · exfalso
    simp only [Char.isAlpha, Char.isUpper, Char.isLower, Char.isDigit,
      Bool.or_eq_true, Bool.and_eq_true, decide_eq_true_eq] at h hc
    rcases h with ⟨h1, _⟩ | ⟨h1, _⟩ <;>
    · have h1' : (65 : UInt32).toNat ≤ c.val.toNat ∨ (97 : UInt32).toNat ≤ c.val.toNat := by
        first
        | exact Or.inl h1
        | exact Or.inr h1
      have hc' : c.val.toNat ≤ (57 : UInt32).toNat := hc.2
      rcases h1' with h1' | h1'
      · exact absurd (Nat.le_trans h1' hc') (by decide)
      · exact absurd (Nat.le_trans h1' hc') (by decide)

theorem isWordChar_of_isAlpha {c : Char} (h : c.isAlpha = true) : isWordChar c = true := by
  simp [isWordChar, Char.isAlphanum, h]

/-! ## Claim C8 -/

/-- C8: a query that is empty, not a string, or whitespace-only yields the
all-zero summary `{calories: 0.0, carbohydrates: 0.0, protein: 0.0,
total_fat: 0.0}` immediately — for every credential value and every
environment, so before any credential check or network call. -/
theorem claim_c8_blank_query_zero_summary :
    ∀ (apiKey : Option String) (env : Env) (s : String),
      (∀ c ∈ s.data, isPySpace c = true) →
      get_nutrition_info (.pyStr s) apiKey env = .summary ZERO_NUTRITION ∧
      get_nutrition_info .nonString apiKey env = .summary ZERO_NUTRITION := by
  intro apiKey env s hs
  constructor
  · simp only [get_nutrition_info]
    rw [if_pos (Or.inr (pyStrip_eq_nil_of_all hs))]
  · rfl

/-- Witness for C8 at the whitespace-only query `"  "` with a missing
credential. -/
theorem claim_c8_witness :
    (∀ c ∈ ("  " : String).data, isPySpace c = true) ∧
    get_nutrition_info (.pyStr "  ") none sampleEnv = .summary ZERO_NUTRITION :=
  ⟨by decide, (claim_c8_blank_query_zero_summary none sampleEnv "  " (by decide)).1⟩

/-! ## Claim C4 -/

/-- C4 (counterexample to the claim as stated): with the credential missing,
the empty query still yields the zeroed summary — the input-validation check
runs before the credential check, so "for every query" fails. -/
theorem claim_c4_counterexample :
    get_nutrition_info (.pyStr "") none sampleEnv = .summary ZERO_NUTRITION := by
  decide

/-- C4 (amended): for every query that passes input validation (a string
whose stripped text is nonempty), a missing or empty credential yields the
hard-failure record naming `USDA_FOOD_API_KEY`, for every environment. -/
theorem claim_c4_missing_credential :
    ∀ (s : String) (apiKey : Option String) (env : Env),
      pyStrip s.data ≠ [] → keyTruthy apiKey = false →
      get_nutrition_info (.pyStr s) apiKey env =
        .error "USDA_FOOD_API_KEY not found in environment variables" := by
  intro s apiKey env hne hkey
  simp only [get_nutrition_info]
  have hs : ¬(s = "" ∨ pyStrip s.data = []) := by
    rintro (rfl | h)
    · exact hne rfl
    · exact hne h
  rw [if_neg hs, if_pos (by simp [hkey])]

/-- Witness for C4 (amended) at the query `"Egg"` with an absent
credential. -/
theorem claim_c4_witness :
    get_nutrition_info (.pyStr "Egg") none sampleEnv =
      .error "USDA_FOOD_API_KEY not found in environment variables" :=
  claim_c4_missing_credential "Egg" none sampleEnv (by decide) rfl

/-! ## Claim C2 -/

/-- C2 (evaluation at the claim's failing input): the code parses
`"1/2 cup Flour"` to quantity 1.0, unit "g" and food name "Flour" — not to
the claimed quantity 0.5 and unit "cup" — because the measurement text
`"1/2 cup"` is split on `"/"` before the numeric match, leaving only `"1"`
for the quantity. -/
theorem claim_c2_fraction_query_result :
    parse_input "1/2 cup Flour" = .ok 1 "g" "Flour" := by
  decide

/-! ## Claim C6 -/

/-- C6 (counterexample to the claim as stated): the multi-word no-number
query `"olive oil"` is a parse failure (the text before the last space,
`"olive"`, does not match the numeric pattern), not quantity 1.0 with unit
"g" and food name "olive oil". -/
theorem claim_c6_counterexample :
    parse_input "olive oil" = .failed "Failed to parse measurement 'olive'" := by
  decide

/-- C6 (amended): for every nonempty query with no whitespace at all (a
single token, numeric-led or not), the parser resolves quantity 1.0 and
unit "g" with the whole text as the food name; a multi-word query gets this
default only when its pre-last-space text is empty after stripping, which
cannot happen for a stripped query, so multi-word no-number queries are
soft failures instead (see the counterexample). -/
theorem claim_c6_default_quantity_unit :
    ∀ s : List Char, s ≠ [] → (∀ c ∈ s, isPySpace c = false) →
      parse_input (String.mk s) = .ok 1 "g" (String.mk s) := by
  intro s hne hs
  have h1 : pyStrip (String.mk s).data = s := pyStrip_eq_self_of_all hs
  have h2 : rfindChar ' ' s = none :=
    rfindChar_eq_none (fun hmem => by
      have := hs ' ' hmem
      exact absurd this (by decide))
  simp [parse_input, finishParse, h1, h2, hne]

/-- Witness for C6 (amended) at the single-token query `"Egg"`. -/
theorem claim_c6_witness :
    parse_input (String.mk "Egg".data) = .ok 1 "g" (String.mk "Egg".data) :=
  claim_c6_default_quantity_unit "Egg".data (by decide) (by decide)

/-! ## Claim C3 -/

/-- C3 (counterexample to the claim as stated): for
`"75g salted Butter"` the parser returns food name `"Butter"`, the final
whitespace-separated token, not the entire remaining text
`"salted Butter"` after the measurement prefix. -/
theorem claim_c3_counterexample :
    parse_input "75g salted Butter" = .ok 75 "g" "Butter" ∧
    ("Butter" == "salted Butter") = false := by
  constructor <;> decide

/-! ## Claims C7 and C9: the nutrient projection and its scaling -/

theorem updateTemp_proj (t : TempNutrition) (id amt : _) (nid : Nat)
    (h : nid = 1008 ∨ nid = 1004 ∨ nid = 1003 ∨ nid = 1005) :
    tempProj (updateTemp t id amt) nid = if id = nid then some amt else tempProj t nid := by
  rcases h with rfl | rfl | rfl | rfl <;>
    · simp only [updateTemp, tempProj]
      split_ifs <;> simp_all

theorem buildTemp_proj (nid : Nat)
    (h : nid = 1008 ∨ nid = 1004 ∨ nid = 1003 ∨ nid = 1005) :
    ∀ (l : List NutrientEntry) (t : TempNutrition),
      tempProj (buildTemp l t) nid = (lastTrackedAmount nid l).or (tempProj t nid) := by
  intro l
  induction l with
  | nil => intro t; simp [buildTemp, lastTrackedAmount]
  | cons n rest ih =>
    intro t
    cases hn : n.nutrient with
    | none => simp [buildTemp, lastTrackedAmount, hn, ih]
    | some inner =>
      simp only [buildTemp, lastTrackedAmount, hn]
      rw [ih, updateTemp_proj _ _ _ _ h]
      by_cases hid : inner.id = nid
      · rw [if_pos hid, if_pos hid]
        cases lastTrackedAmount nid rest <;> simp [Option.or]
      · rw [if_neg hid, if_neg hid]

theorem get_simple_nutrition_eq (l : List NutrientEntry) :
    get_simple_nutrition l =
      [("calories", (lastTrackedAmount 1008 l).getD 0),
       ("carbohydrates", (lastTrackedAmount 1005 l).getD 0),
       ("protein", (lastTrackedAmount 1003 l).getD 0),
       ("total_fat", (lastTrackedAmount 1004 l).getD 0)] := by
  have e8 := buildTemp_proj 1008 (by tauto) l ⟨none, none, none, none⟩
  have e4 := buildTemp_proj 1004 (by tauto) l ⟨none, none, none, none⟩
  have e3 := buildTemp_proj 1003 (by tauto) l ⟨none, none, none, none⟩
  have e5 := buildTemp_proj 1005 (by tauto) l ⟨none, none, none, none⟩
  simp [tempProj] at e8 e4 e3 e5
  simp [get_simple_nutrition, e8, e4, e3, e5]

/-- C7: for every nutrient-detail list, the extracted record has exactly
the four keys calories, carbohydrates, protein, total_fat in that order;
each field independently carries the amount of the last entry with the
corresponding tracked nutrient code (1008, 1005, 1003, 1004), defaulting to
0.0 when no entry has that code — so a partially-populated response still
yields a well-formed four-field summary. -/
theorem claim_c7_fixed_shape_defaults :
    ∀ l : List NutrientEntry,
      get_simple_nutrition l =
        [("calories", (lastTrackedAmount 1008 l).getD 0),
         ("carbohydrates", (lastTrackedAmount 1005 l).getD 0),
         ("protein", (lastTrackedAmount 1003 l).getD 0),
         ("total_fat", (lastTrackedAmount 1004 l).getD 0)] ∧
      (get_simple_nutrition l).map Prod.fst =
        ["calories", "carbohydrates", "protein", "total_fat"] := by
  intro l
  refine ⟨get_simple_nutrition_eq l, ?_⟩
  rw [get_simple_nutrition_eq l]
  rfl

theorem lastTrackedAmount_scale (nid : Nat) (f : ℚ) (l : List NutrientEntry) :
    lastTrackedAmount nid (scaleNutrients l f) =
      (lastTrackedAmount nid l).map (fun a => a * f) := by
  induction l with
  | nil => rfl
  | cons n rest ih =>
    cases hn : n.nutrient with
    | none =>
      cases ha : n.amount <;>
        simp [scaleNutrients, lastTrackedAmount, hn, ha, ih] <;>
        simp [scaleNutrients] at ih <;> exact ih
    | some inner =>
      by_cases hid : inner.id = nid
      · cases ha : n.amount <;>
          · simp only [scaleNutrients, List.map_cons] at *
            simp only [lastTrackedAmount, hn, ha, hid, if_pos rfl, ih]
            cases lastTrackedAmount nid rest <;> simp [Option.or, zero_mul]
      · cases ha : n.amount <;>
          · simp only [scaleNutrients, List.map_cons] at *
            simp only [lastTrackedAmount, hn, ha, hid, if_neg hid, ih]
            simp

theorem getD_map_mul (o : Option ℚ) (f : ℚ) :
    (o.map (fun a => a * f)).getD 0 = o.getD 0 * f := by
  cases o <;> simp

/-- C9: each output field of the scaled summary equals the per-100g amount
(of the last entry with the matching code, 0 when absent) multiplied by
(resolved grams / 100); consequently, doubling the resolved gram quantity
doubles each of the four output fields exactly. -/
theorem claim_c9_scaling_linearity :
    ∀ (l : List NutrientEntry) (g : ℚ),
      get_simple_nutrition (scaleNutrients l (g / 100)) =
        [("calories", (lastTrackedAmount 1008 l).getD 0 * (g / 100)),
         ("carbohydrates", (lastTrackedAmount 1005 l).getD 0 * (g / 100)),
         ("protein", (lastTrackedAmount 1003 l).getD 0 * (g / 100)),
         ("total_fat", (lastTrackedAmount 1004 l).getD 0 * (g / 100))] ∧
      get_simple_nutrition (scaleNutrients l (2 * g / 100)) =
        (get_simple_nutrition (scaleNutrients l (g / 100))).map
          (fun p => (p.1, 2 * p.2)) := by
  intro l g
  have hfield : ∀ (f : ℚ), get_simple_nutrition (scaleNutrients l f) =
      [("calories", (lastTrackedAmount 1008 l).getD 0 * f),
       ("carbohydrates", (lastTrackedAmount 1005 l).getD 0 * f),
       ("protein", (lastTrackedAmount 1003 l).getD 0 * f),
       ("total_fat", (lastTrackedAmount 1004 l).getD 0 * f)] := by
    intro f
    rw [get_simple_nutrition_eq]
    simp [lastTrackedAmount_scale, getD_map_mul]
  refine ⟨hfield (g / 100), ?_⟩
  rw [hfield (2 * g / 100), hfield (g / 100)]
  simp only [List.map_cons, List.map_nil]
  refine congrArg₂ _ ?_ (congrArg₂ _ ?_ (congrArg₂ _ ?_ (congrArg₂ _ ?_ rfl))) <;>
    · refine congrArg _ ?_
      ring

/-! ## Claim C10: the fraction branch of the quantity parse is dead code -/

theorem slash_not_mem_firstSplitSlash (s : List Char) : '/' ∉ firstSplitSlash s := by
  intro h
  have := List.mem_takeWhile_imp h
  simp at this

theorem mem_pyStrip {c : Char} {l : List Char} (h : c ∈ pyStrip l) : c ∈ l := by
  unfold pyStrip at h
  rw [List.mem_reverse] at h
  have h2 : c ∈ (l.dropWhile isPySpace).reverse :=
    List.Sublist.mem h (List.dropWhile_sublist _)
  rw [List.mem_reverse] at h2
  exact List.Sublist.mem h2 (List.dropWhile_sublist _)

theorem slash_not_mem_takeWhile_digit (s : List Char) :
    '/' ∉ s.takeWhile Char.isDigit := by
  intro h
  have := List.mem_takeWhile_imp h
  exact absurd this (by decide)

theorem matchNumeric_no_slash {s : List Char} {tok rest : List Char}
    (hs : '/' ∉ s) (h : matchNumeric s = some (tok, rest)) : '/' ∉ tok := by
  unfold matchNumeric at h
  split at h
  case _ r2 heq =>
    exfalso
    exact hs (List.Sublist.mem (by simp [heq]) (List.dropWhile_sublist Char.isDigit) :
      '/' ∈ s)
  case _ r2 heq =>
    split at h
    · rcases Option.some.inj h with h'
      have htok : tok = s.takeWhile Char.isDigit ++ '.' :: r2.takeWhile Char.isDigit :=
        (congrArg Prod.fst h').symm
      subst htok
      intro hmem
      rcases List.mem_append.mp hmem with hmem | hmem
      · exact slash_not_mem_takeWhile_digit s hmem
      · rcases List.mem_cons.mp hmem with hmem | hmem
        · cases hmem
        · exact slash_not_mem_takeWhile_digit r2 hmem
    · split at h
      · rcases Option.some.inj h with h'
        have htok : tok = s.takeWhile Char.isDigit := (congrArg Prod.fst h').symm
        subst htok
        exact slash_not_mem_takeWhile_digit s
      · cases h
  case _ r1 hne1 hne2 =>
    split at h
    · rcases Option.some.inj h with h'
      have htok : tok = s.takeWhile Char.isDigit := (congrArg Prod.fst h').symm
      subst htok
      exact slash_not_mem_takeWhile_digit s
    · cases h

theorem matchMeasurement_no_slash {s : List Char} {m : MeasMatch}
    (hs : '/' ∉ s) (h : matchMeasurement s = some m) : '/' ∉ m.quantityTok := by
  unfold matchMeasurement at h
  cases hnum : matchNumeric s with
  | none => rw [hnum] at h; cases h
  | some pr =>
    rcases pr with ⟨tok, rest⟩
    rw [hnum] at h
    simp only at h
    rcases Option.some.inj h with h'
    have htok : m.quantityTok = tok := by rw [← h']
    rw [htok]
    exact matchNumeric_no_slash hs hnum

/-- C10: the numeric token handed to the quantity parse never contains a
`/` character — the measurement text is split on `"/"` first and only the
first segment is matched, so the token produced by the regex is slash-free
and the fraction-evaluation branch of the quantity parse (taken when the
token contains `/`) is never reached in `parse_input`. -/
theorem claim_c10_fraction_branch_unreachable :
    ∀ s : List Char,
      '/' ∉ firstSplitSlash s ∧
      ∀ m, matchMeasurement (pyStrip (firstSplitSlash s)) = some m →
        '/' ∉ m.quantityTok ∧
        parseQuantityToken m.quantityTok = .ok (floatOfToken m.quantityTok) := by
  intro s
  refine ⟨slash_not_mem_firstSplitSlash s, ?_⟩
  intro m hm
  have hs : '/' ∉ pyStrip (firstSplitSlash s) := fun hmem =>
    slash_not_mem_firstSplitSlash s (mem_pyStrip hmem)
  have hq := matchMeasurement_no_slash hs hm
  refine ⟨hq, ?_⟩
  unfold parseQuantityToken
  rw [if_neg hq]

/-- Witness for C10 at the measurement text `"1/2 cup"` (from the query
`"1/2 cup Flour"`), whose matched numeric token is just `"1"`. -/
theorem claim_c10_witness :
    '/' ∉ (MeasMatch.mk ['1'] none).quantityTok ∧
    parseQuantityToken (MeasMatch.mk ['1'] none).quantityTok =
      .ok (floatOfToken (MeasMatch.mk ['1'] none).quantityTok) :=
  (claim_c10_fraction_branch_unreachable "1/2 cup".data).2 ⟨['1'], none⟩ (by decide)

/-! ## Claim C1: totality and shape of the result -/

/-- The well-formed summary shape: exactly the four keys in fixed order. -/
def hasSummaryShape (r : NutritionResult) : Prop :=
  (∃ a b c d : ℚ, r = .summary
    [("calories", a), ("carbohydrates", b), ("protein", c), ("total_fat", d)]) ∨
  ∃ msg, r = .error msg

theorem zero_summary_shape : hasSummaryShape (.summary ZERO_NUTRITION) :=
  Or.inl ⟨0, 0, 0, 0, rfl⟩

theorem simple_summary_shape (l : List NutrientEntry) :
    hasSummaryShape (.summary (get_simple_nutrition l)) :=
  Or.inl ⟨_, _, _, _, rfl⟩

theorem mainBody_shape (s : String) (env : Env) :
    ∀ r, mainBody s env = .ok r → hasSummaryShape r := by
  intro r h
  unfold mainBody at h
  split at h
  · cases h; exact zero_summary_shape
  · split at h
    · split at h
      · cases h; exact Or.inr ⟨_, rfl⟩
      · cases h
    · cases h; exact Or.inr ⟨_, rfl⟩
    · split at h
      · cases h; exact zero_summary_shape
      · cases h; exact zero_summary_shape
      · split at h
        · cases h
        · split at h
          · split at h
            · cases h; exact Or.inr ⟨_, rfl⟩
            · cases h
          · cases h; exact Or.inr ⟨_, rfl⟩
          · split at h
            · cases h; exact zero_summary_shape
            · split at h
              · cases h; exact zero_summary_shape
              · cases h; exact simple_summary_shape _

/-- C1: for every input (string or non-string), credential value and
environment behavior, `get_nutrition_info` returns either a four-field
summary record (calories, carbohydrates, protein, total_fat, in order) or a
single-field error record — every internally raised exception is caught, so
no other outcome exists. -/
theorem claim_c1_total_result_shape :
    ∀ (q : QueryInput) (apiKey : Option String) (env : Env),
      (∃ a b c d : ℚ, get_nutrition_info q apiKey env = .summary
        [("calories", a), ("carbohydrates", b), ("protein", c), ("total_fat", d)]) ∨
      ∃ msg, get_nutrition_info q apiKey env = .error msg := by
  intro q apiKey env
  cases q with
  | nonString => exact Or.inl ⟨0, 0, 0, 0, rfl⟩
  | pyStr s =>
    simp only [get_nutrition_info]
    by_cases h1 : s = "" ∨ pyStrip s.data = []
    · rw [if_pos h1]; exact Or.inl ⟨0, 0, 0, 0, rfl⟩
    · rw [if_neg h1]
      by_cases h2 : keyTruthy apiKey = true
      · rw [if_neg (by simp [h2])]
        cases hm : mainBody s env with
        | ok r =>
          rcases mainBody_shape s env r hm with ⟨a, b, c, d, hr⟩ | ⟨msg, hr⟩
          · exact Or.inl ⟨a, b, c, d, by rw [hr]⟩
          · exact Or.inr ⟨msg, by rw [hr]⟩
        | error e => exact Or.inr ⟨_, rfl⟩
      · rw [if_pos (by simpa using h2)]
        exact Or.inr ⟨_, rfl⟩

/-! ## Claim C5: the retry policy -/

/-- C5: an outbound request is retried only for timeouts, connection
failures and HTTP 500/502/503/504, up to 3 attempts; any other HTTP status
raises immediately on the first attempt (later attempts are never
consulted), and three retryable failures exhaust the attempts and raise the
last failure.  In particular, through `get_nutrition_info`, a search call
failing twice with 503 and succeeding on the third attempt yields a normal
four-field summary, while a search call failing with 404 yields the hard
failure immediately. -/
theorem claim_c5_retry_policy :
    (∀ (β : Type) (attempts : Nat → AttemptOutcome β) (b : Except String β) (m1 m2 : String),
      attempts 0 = .httpError 503 m1 → attempts 1 = .httpError 503 m2 →
      attempts 2 = .success b →
      make_request_with_retry attempts 3 = .ok b) ∧
    (∀ (β : Type) (attempts : Nat → AttemptOutcome β) (status : Nat) (m : String),
      ¬(status = 500 ∨ status = 502 ∨ status = 503 ∨ status = 504) →
      attempts 0 = .httpError status m →
      make_request_with_retry attempts 3 = .error (.httpError status m)) ∧
    (∀ (β : Type) (attempts : Nat → AttemptOutcome β) (s0 s1 s2 : Nat) (m0 m1 m2 : String),
      (s0 = 500 ∨ s0 = 502 ∨ s0 = 503 ∨ s0 = 504) →
      (s1 = 500 ∨ s1 = 502 ∨ s1 = 503 ∨ s1 = 504) →
      (s2 = 500 ∨ s2 = 502 ∨ s2 = 503 ∨ s2 = 504) →
      attempts 0 = .httpError s0 m0 → attempts 1 = .httpError s1 m1 →
      attempts 2 = .httpError s2 m2 →
      make_request_with_retry attempts 3 = .error (.httpError s2 m2)) ∧
    (∀ (β : Type) (attempts : Nat → AttemptOutcome β) (b : Except String β) (m : String),
      attempts 0 = .timeout m → attempts 1 = .success b →
      make_request_with_retry attempts 3 = .ok b) ∧
    (∀ (β : Type) (attempts : Nat → AttemptOutcome β) (b : Except String β) (m : String),
      attempts 0 = .connectionError m → attempts 1 = .success b →
      make_request_with_retry attempts 3 = .ok b) ∧
    (∃ a b c d : ℚ,
      get_nutrition_info (.pyStr "75g Butter") (some "key") envRetrySuccess = .summary
        [("calories", a), ("carbohydrates", b), ("protein", c), ("total_fat", d)]) ∧
    get_nutrition_info (.pyStr "75g Butter") (some "key") envNotFound =
      .error "API search request failed for 'Butter': 404 Client Error" := by
  refine ⟨?_, ?_, ?_, ?_, ?_, ?_, ?_⟩
  · intro β attempts b m1 m2 h0 h1 h2
    simp [make_request_with_retry, retryLoop, h0, h1, h2]
  · intro β attempts status m hstat h0
    simp only [make_request_with_retry, retryLoop, h0]
    rw [if_neg hstat]
  · intro β attempts s0 s1 s2 m0 m1 m2 hs0 hs1 hs2 h0 h1 h2
    simp only [make_request_with_retry, retryLoop, h0, h1, h2]
    rw [if_pos hs0, if_pos hs1, if_pos hs2]
    rfl
  · intro β attempts b m h0 h1
    simp [make_request_with_retry, retryLoop, h0, h1]
  · intro β attempts b m h0 h1
    simp [make_request_with_retry, retryLoop, h0, h1]
  · have hparse : parse_input "75g Butter" = .ok 75 "g" "Butter" := by decide
    have hsearch : make_request_with_retry envRetrySuccess.searchAttempts 3 =
        .ok (.ok butterSearch) := rfl
    have hdetail : make_request_with_retry (envRetrySuccess.detailAttempts 123) 3 =
        .ok (.ok butterDetails) := rfl
    have hcf : conversionFactor
        (if ("g" : String) = "" then "g" else String.mk ("g".data.map Char.toLower)) =
        some 1 := by decide
    have hgrams : convert_to_grams 75 "g" = 75 := by
      unfold convert_to_grams
      rw [hcf]
      norm_num
    have hres : get_nutrition_info (.pyStr "75g Butter") (some "key") envRetrySuccess =
        .summary (get_simple_nutrition (scaleNutrients (butterDetails.foodNutrients.getD [])
          (convert_to_grams 75 "g" / 100))) := by
      simp only [get_nutrition_info]
      rw [if_neg (by decide), if_neg (by decide)]
      simp only [mainBody, hparse, hsearch, butterSearch, hdetail]
      rw [if_neg (by rw [hgrams]; norm_num), if_neg (by decide)]
    rw [hres, get_simple_nutrition_eq]
    exact ⟨_, _, _, _, rfl⟩
  · decide

/-- Witness for C5: the 503-503-success schedule returns the third
attempt's body. -/
theorem claim_c5_witness :
    make_request_with_retry flakySearchAttempts 3 = .ok (.ok butterSearch) :=
  claim_c5_retry_policy.1 SearchBody flakySearchAttempts (.ok butterSearch)
    "503 Server Error" "503 Server Error" rfl rfl rfl

/-! ## Claim C3: queries of the form number-unit-space-food -/

theorem takeWhile_digit_of_alpha {u : List Char} (hu : ∀ c ∈ u, c.isAlpha = true) :
    u.takeWhile Char.isDigit = [] := by
  cases u with
  | nil => rfl
  | cons c u' =>
    rw [List.takeWhile_cons, if_neg]
    rw [not_isDigit_of_isAlpha (hu c (List.mem_cons_self c u'))]
    simp

theorem dropWhile_digit_of_alpha {u : List Char} (hu : ∀ c ∈ u, c.isAlpha = true) :
    u.dropWhile Char.isDigit = u := by
  cases u with
  | nil => rfl
  | cons c u' =>
    rw [List.dropWhile_cons, if_neg]
    rw [not_isDigit_of_isAlpha (hu c (List.mem_cons_self c u'))]
    simp

theorem matchNumeric_digits_alpha {d u : List Char} (hd : d ≠ [])
    (hdd : ∀ c ∈ d, c.isDigit = true) (hu : ∀ c ∈ u, c.isAlpha = true) :
    matchNumeric (d ++ u) = some (d, u) := by
  have htake : (d ++ u).takeWhile Char.isDigit = d := by
    rw [takeWhile_append_all u hdd, takeWhile_digit_of_alpha hu, List.append_nil]
  have hdrop : (d ++ u).dropWhile Char.isDigit = u := by
    rw [dropWhile_append_all u hdd, dropWhile_digit_of_alpha hu]
  unfold matchNumeric
  rw [hdrop, htake]
  cases u with
  | nil => simp [hd]
  | cons c u' =>
    have hc := hu c (List.mem_cons_self c u')
    split
    · rename_i r2 heq
      exact absurd (List.cons.inj heq).1 (ne_slash_of_isAlpha hc)
    · rename_i r2 heq
      exact absurd (List.cons.inj heq).1 (ne_dot_of_isAlpha hc)
    · simp [hd]

theorem matchMeasurement_digits_alpha {d u : List Char} (hd : d ≠ [])
    (hdd : ∀ c ∈ d, c.isDigit = true) (hu : ∀ c ∈ u, c.isAlpha = true) :
    matchMeasurement (d ++ u) = some ⟨d, if u = [] then none else some u⟩ := by
  unfold matchMeasurement
  rw [matchNumeric_digits_alpha hd hdd hu]
  have hdropsp : u.dropWhile isPySpace = u :=
    dropWhile_eq_self_of_head (fun c hc => by
      cases u with
      | nil => cases hc
      | cons a u' =>
        simp only [List.head?_cons, Option.some.injEq] at hc
        subst hc
        exact not_pySpace_of_isAlpha (hu _ (List.mem_cons_self _ u')))
  have htakew : u.takeWhile isWordChar = u :=
    takeWhile_eq_self_of_all (fun c hc => isWordChar_of_isAlpha (hu c hc))
  simp only [hdropsp, htakew]

theorem floatOfToken_digits {d : List Char} (hdd : ∀ c ∈ d, c.isDigit = true) :
    floatOfToken d = (digitsVal d : ℚ) := by
  unfold floatOfToken
  rw [takeWhile_eq_self_of_all hdd, List.dropWhile_eq_nil_iff.mpr hdd]

theorem parseQuantityToken_digits {d : List Char} (hdd : ∀ c ∈ d, c.isDigit = true) :
    parseQuantityToken d = .ok ((digitsVal d : ℚ)) := by
  unfold parseQuantityToken
  rw [if_neg (fun hmem => absurd (hdd '/' hmem) (by decide)), floatOfToken_digits hdd]

/-- C3 (amended): for every query made of a leading digit token `d` with a
positive value, an optional attached alphabetic unit token `u`, a space and
a food token `f` with no whitespace, the parser returns the numeric value
of `d`, the lowercased unit (defaulting to "g" when absent), and `f` — the
final whitespace-separated token — as the food name; when the food text has
several tokens only the last one is kept, as the concrete
`"75g salted Butter"` conjunct shows. -/
theorem claim_c3_numeric_unit_last_token :
    (∀ (d u f : List Char),
      d ≠ [] → (∀ c ∈ d, c.isDigit = true) → 0 < digitsVal d →
      (∀ c ∈ u, c.isAlpha = true) →
      f ≠ [] → (∀ c ∈ f, isPySpace c = false) →
      parse_input (String.mk (d ++ u ++ ' ' :: f)) =
        .ok (digitsVal d)
          (if u = [] then "g" else String.mk (u.map Char.toLower))
          (String.mk f)) ∧
    parse_input "75g salted Butter" = .ok 75 "g" "Butter" := by
  constructor
  · intro d u f hd hdd hdpos hu hf hfs
    have hspace_f : ' ' ∉ f := fun hm => absurd (hfs ' ' hm) (by decide)
    have hq : pyStrip (d ++ u ++ ' ' :: f) = d ++ u ++ ' ' :: f := by
      apply pyStrip_eq_self
      · intro c hc
        rw [List.head?_append, List.head?_append] at hc
        cases hhd : d.head? with
        | none => exact absurd (List.head?_eq_none_iff.mp hhd) hd
        | some c1 =>
          rw [hhd, Option.or_some, Option.or_some] at hc
          rcases Option.some.inj hc with rfl
          exact not_pySpace_of_isDigit (hdd _ (List.mem_of_mem_head? hhd))
      · intro c hc
        rw [List.getLast?_append, List.getLast?_append, List.getLast?_cons] at hc
        simp only [Option.or_some] at hc
        cases hfl : f.getLast? with
        | none => exact absurd (List.getLast?_eq_none_iff.mp hfl) hf
        | some a =>
          rw [hfl] at hc
          simp only [Option.getD_some, Option.some.injEq] at hc
          subst hc
          exact hfs a (List.mem_of_mem_getLast? hfl)
    have hrfind : rfindChar ' ' (d ++ u ++ ' ' :: f) = some (d ++ u).length :=
      rfindChar_append_sep hspace_f
    have hdropf : (d ++ u ++ ' ' :: f).drop ((d ++ u).length + 1) = f := by
      have e1 : d ++ u ++ ' ' :: f = ((d ++ u) ++ [' ']) ++ f := by simp
      have e2 : (d ++ u).length + 1 = ((d ++ u) ++ [' ']).length := by
        simp
        omega
      rw [e1, e2]
      exact List.drop_left _ _
    have htakem : (d ++ u ++ ' ' :: f).take (d ++ u).length = d ++ u :=
      List.take_left _ _
    have hmeas_nospace : ∀ c ∈ d ++ u, isPySpace c = false := by
      intro c hc
      rcases List.mem_append.mp hc with h | h
      · exact not_pySpace_of_isDigit (hdd c h)
      · exact not_pySpace_of_isAlpha (hu c h)
    have hmeas : pyStrip (d ++ u) = d ++ u := pyStrip_eq_self_of_all hmeas_nospace
    have hfood : pyStrip f = f := pyStrip_eq_self_of_all hfs
    have hfsplit : firstSplitSlash (d ++ u) = d ++ u := by
      apply takeWhile_eq_self_of_all
      intro c hc
      rcases List.mem_append.mp hc with h | h
      · simpa [bne_iff_ne] using ne_slash_of_isDigit (hdd c h)
      · simpa [bne_iff_ne] using ne_slash_of_isAlpha (hu c h)
    have hmm := matchMeasurement_digits_alpha hd hdd hu
    have hquant := parseQuantityToken_digits hdd
    have hqpos : ¬((digitsVal d : ℚ) ≤ 0) := by
      rw [not_le]
      exact_mod_cast hdpos
    have hmne : d ++ u ≠ [] := by
      intro h
      exact hd (List.append_eq_nil.mp h).1
    have hqne : d ++ u ++ ' ' :: f ≠ [] := by
      intro h
      exact hmne (List.append_eq_nil.mp h).1
    have hdata : (String.mk (d ++ u ++ ' ' :: f)).data = d ++ u ++ ' ' :: f := rfl
    simp only [parse_input, hdata, hq, hrfind, hdropf, htakem, hmeas, hfood,
      hfsplit, hmm, hquant, if_neg hqne, if_neg hmne, if_neg hqpos]
    cases u with
    | nil => simp [finishParse, hf]
    | cons a u' => simp [finishParse, hf]
  · decide

/-- Witness for C3 (amended) at `"75g Butter"`: digits `"75"`, unit `"g"`,
food `"Butter"`. -/
theorem claim_c3_witness :
    parse_input (String.mk ("75".data ++ "g".data ++ ' ' :: "Butter".data)) =
      .ok (digitsVal "75".data)
        (if ("g".data : List Char) = [] then "g" else String.mk ("g".data.map Char.toLower))
        (String.mk "Butter".data) :=
  claim_c3_numeric_unit_last_token.1 "75".data "g".data "Butter".data
    (by decide) (by decide) (by decide) (by decide) (by decide) (by decide)

end MealNutrition
